import Mathlib

/-!
Verification of the natural-language specification of the fcCamlib
package of flatcam-qt6 against the Python source.

The Python modules under `src/fcCamlib/` are shallowly embedded below:
pure functions become Lean functions over `ℚ` (finite IEEE doubles are
modelled as rationals / reals, as is conventional), mutable objects
become explicit state records, and Python exceptions become
`Except`-style values.  External libraries (shapely, rtree, numpy) are
modelled by abstract operation records or by explicit constructors; the
repository's own control flow is translated line by line.
-/

namespace FcCamlib

/-! ## Python string and number helpers

`float()` on a bare (sign + digits, no decimal point) token, and the
regex groups used by the Excellon parser. -/

/-- Numeric value of a list of decimal digit characters (Python
`int`/`float` of a digit string). -/
def digitsVal (cs : List Char) : ℕ :=
  cs.foldl (fun a c => 10 * a + (c.toNat - '0'.toNat)) 0

/-- Strip an optional leading sign, as the regex `[-\+]?` does.
Returns (isNegative, remaining characters). -/
def stripSign : List Char → Bool × List Char
  | '-' :: r => (true, r)
  | '+' :: r => (false, r)
  | r => (false, r)

/-- ASCII upper-casing of one character (Python `str.upper` on the
unit strings appearing here). -/
def charUpper (c : Char) : Char :=
  if 'a' ≤ c ∧ c ≤ 'z' then Char.ofNat (c.toNat - 32) else c

/-- ASCII lower-casing of one character (Python `str.lower`). -/
def charLower (c : Char) : Char :=
  if 'A' ≤ c ∧ c ≤ 'Z' then Char.ofNat (c.toNat + 32) else c

/-- Python `s.upper()` for the ASCII strings used as unit names. -/
def pyToUpper (s : String) : String := String.mk (s.toList.map charUpper)

/-- Python `s.lower()` for the ASCII strings used as unit names. -/
def pyToLower (s : String) : String := String.mk (s.toList.map charLower)

/-- The string `s` is a bare Excellon coordinate token: an optional sign followed
by one or more decimal digits and nothing else (no decimal point). -/
def isBareToken (s : String) : Prop :=
  (stripSign s.toList).2 ≠ [] ∧ ∀ c ∈ (stripSign s.toList).2, c.isDigit

instance (s : String) : Decidable (isBareToken s) := by
  unfold isBareToken; infer_instance

/-- Python `float(number_str)` for a bare token. -/
def pyFloat (s : String) : ℚ :=
  let (neg, ds) := stripSign s.toList
  (if neg then -1 else 1) * (digitsVal ds : ℚ)

/-- Groups of `leadingzeros_re = r'^[-\+]?(0*)(\d*)'` applied to a
token: group 1 is the maximal run of `'0'` after the optional sign,
group 2 the maximal run of digits after that. -/
def leadingzerosGroups (s : String) : List Char × List Char :=
  let ds := (stripSign s.toList).2
  (ds.takeWhile (· = '0'), (ds.dropWhile (· = '0')).takeWhile Char.isDigit)

/-! ## `Excellon.parse_number` (src/fcCamlib/excellon.py, lines 303-335)

The method reads `self.zeros` ("L" or "T") and `self.units`; we pass
both as arguments. -/

/-- Shallow embedding of `Excellon.parse_number`.  `zeros` is
`self.zeros`, `units` is `self.units`. -/
def parse_number (zeros units number_str : String) : ℚ :=
  if zeros = "L" then
    -- match = self.leadingzeros_re.search(number_str)
    let m := leadingzerosGroups number_str
    if pyToLower units = "in" then
      pyFloat number_str / (10 : ℚ) ^ ((m.1.length : ℤ) + m.2.length - 2)
    else
      pyFloat number_str / (10 : ℚ) ^ ((m.1.length : ℤ) + m.2.length - 3)
  else
    if pyToLower units = "in" then
      pyFloat number_str / 10000
    else
      pyFloat number_str / 1000

/-! Spec-side decodes, written from the claim's words: "the token's
float value divided by 10^(number of leading zeros + number of
remaining digits - k)" resp. "divided by the fixed divisor 10000 for
inches and 1000 for metric". -/

/-- Number of leading zeros of the token (after the sign). -/
def tokLeadingZeros (s : String) : ℕ :=
  ((stripSign s.toList).2.takeWhile (· = '0')).length

/-- Number of digits remaining after the leading zeros. -/
def tokRemDigits (s : String) : ℕ :=
  ((stripSign s.toList).2.dropWhile (· = '0')).length

/-- Leading-zeros-mode decode as the specification describes it. -/
def specLeadingDecode (k : ℤ) (s : String) : ℚ :=
  pyFloat s / (10 : ℚ) ^ ((tokLeadingZeros s : ℤ) + tokRemDigits s - k)

/-- Trailing-zeros-mode decode as the specification describes it. -/
def specTrailingDecode (d : ℚ) (s : String) : ℚ :=
  pyFloat s / d

lemma takeWhile_isDigit_of_all {cs : List Char}
    (h : ∀ c ∈ cs, c.isDigit) : cs.takeWhile Char.isDigit = cs := by
  induction cs with
  | nil => rfl
  | cons c cs ih =>
    simp only [List.takeWhile_cons]
    rw [h c (by simp)]
    simp only [if_true, List.cons.injEq, true_and]
    exact ih fun x hx => h x (by simp [hx])

/-- For a bare token, group 2 of `leadingzeros_re` is all of the
digits after the leading zeros. -/
lemma leadingzerosGroups_bare {s : String} (h : isBareToken s) :
    leadingzerosGroups s =
      ((stripSign s.toList).2.takeWhile (· = '0'),
       (stripSign s.toList).2.dropWhile (· = '0')) := by
  unfold leadingzerosGroups
  simp only []
  congr 1
  apply takeWhile_isDigit_of_all
  intro c hc
  exact h.2 c (List.dropWhile_subset _ hc)

/-! ## Geometry documents and `Geometry.convert_units`
(src/fcCamlib/geometry.py, lines 824-850)

A document is modelled by its `units` string together with the planar
coordinates of its geometry.  `scale` is the coordinate scaling that
the concrete subclasses implement (e.g. `Excellon.scale` maps every
point through `affinity.scale(point, factor, factor, origin=(0,0))`,
i.e. multiplies both coordinates by the factor). -/

structure GeoDoc where
  units : String
  coords : List (ℚ × ℚ)
  deriving DecidableEq, Repr

/-- Subclass `scale`: multiply every coordinate by `factor` about the
origin. -/
def GeoDoc.scale (g : GeoDoc) (factor : ℚ) : GeoDoc :=
  { g with coords := g.coords.map fun p => (factor * p.1, factor * p.2) }

/-- Shallow embedding of `Geometry.convert_units`.  Returns the factor
together with the updated document (the Python method mutates `self`
and returns the factor). -/
def GeoDoc.convert_units (g : GeoDoc) (units : String) : ℚ × GeoDoc :=
  if pyToUpper units = pyToUpper g.units then
    (1, g)
  else if pyToUpper units = "MM" then
    ((254 : ℚ) / 10, (GeoDoc.scale { g with units := units } ((254 : ℚ) / 10)))
  else if pyToUpper units = "IN" then
    ((10 : ℚ) / 254, (GeoDoc.scale { g with units := units } ((10 : ℚ) / 254)))
  else
    -- log.error("Unsupported units ..."); return 1.0 -- no mutation
    (1, g)

/-! ## Python exceptions -/

/-- The Python exceptions relevant to the embedded code. -/
inductive PyErr where
  | typeError
  | valueError
  | keyError
  | stopIteration
  deriving DecidableEq, Repr

instance {ε α : Type _} [DecidableEq ε] [DecidableEq α] :
    DecidableEq (Except ε α) := fun x y =>
  match x, y with
  | .ok a, .ok b =>
    if h : a = b then isTrue (by rw [h]) else isFalse (by simp [h])
  | .error a, .error b =>
    if h : a = b then isTrue (by rw [h]) else isFalse (by simp [h])
  | .ok _, .error _ => isFalse (by simp)
  | .error _, .ok _ => isFalse (by simp)

/-! ## The Excellon parser (src/fcCamlib/excellon.py, `parse_lines`)

State of an `Excellon` object: `units` and the subclass attributes
`zeros`, `tools` (name ↦ C diameter) and `drills`. -/

/-- One entry of `Excellon.drills`. -/
structure ExcDrill where
  point : ℚ × ℚ
  tool : String
  deriving DecidableEq, Repr

/-- The mutable attributes of an `Excellon` object touched by the
parser. -/
structure ExcSt where
  units : String
  zeros : String
  tools : List (String × ℚ)
  drills : List ExcDrill
  deriving DecidableEq, Repr

/-- A fresh `Excellon()`: `Geometry.__init__` sets `units = 'in'`,
the Excellon constructor sets `zeros = "L"` (the class default). -/
def ExcSt.init : ExcSt := ⟨"in", "L", [], []⟩

/-- Python dict assignment `d[k] = v` on an association list:
replace in place if present, else append. -/
def dictSet (k : String) (v : ℚ) : List (String × ℚ) → List (String × ℚ)
  | [] => [(k, v)]
  | (k', v') :: r => if k' = k then (k, v) :: r else (k', v') :: dictSet k v r

/-- Embedding of `Excellon.scale`: scale every drill point by the factor (about
the origin, as `affinity.scale(..., origin=(0,0))` does). -/
def ExcSt.scale (st : ExcSt) (factor : ℚ) : ExcSt :=
  { st with drills := st.drills.map fun d =>
      { d with point := (factor * d.point.1, factor * d.point.2) } }

/-- Embedding of `Excellon.convert_units`: runs `Geometry.convert_units` (which
updates `units` and calls `scale` only when an actual conversion
happens) and then multiplies every tool diameter by the factor. -/
def ExcSt.convert_units (st : ExcSt) (u : String) : ExcSt :=
  let p : ℚ × ExcSt :=
    if pyToUpper u = pyToUpper st.units then (1, st)
    else if pyToUpper u = "MM" then
      ((254 : ℚ) / 10, ExcSt.scale { st with units := u } ((254 : ℚ) / 10))
    else if pyToUpper u = "IN" then
      ((10 : ℚ) / 254, ExcSt.scale { st with units := u } ((10 : ℚ) / 254))
    else (1, st)
  { p.2 with tools := p.2.tools.map fun t => (t.1, t.2 * p.1) }

/-! Regex helpers for the Excellon patterns. -/

/-- Characters stripped by `eline.strip(' \r\n')`. -/
def excStripSet : List Char := [' ', '\r', '\n']

/-- Python `s.strip(' \r\n')`. -/
def pyStripLine (s : String) : String :=
  String.mk
    (((s.toList.dropWhile (· ∈ excStripSet)).reverse.dropWhile
        (· ∈ excStripSet)).reverse)

/-- Suffix of `cs` strictly after the last occurrence of `tgt`
(`None` if `tgt` does not occur) — the effect of a greedy `.*tgt`
before a capture group. -/
def afterLast (tgt : Char) : List Char → Option (List Char)
  | [] => none
  | c :: rest =>
    match afterLast tgt rest with
    | some r => some r
    | none => if c = tgt then some rest else none

/-- Greedy capture of `[-\+]?\d*` at the head of `cs`. -/
def signedDigits (cs : List Char) : List Char :=
  match cs with
  | '-' :: r => '-' :: r.takeWhile Char.isDigit
  | '+' :: r => '+' :: r.takeWhile Char.isDigit
  | r => r.takeWhile Char.isDigit

/-- Search of `coordsnoperiod_re`: the first position whose character is
`X` or `Y` and after which no `.` occurs (the `(?!.*\.)` lookahead);
returns the suffix of the line starting there. -/
def coordsNoPeriodSearch : List Char → Option (List Char)
  | [] => none
  | c :: rest =>
    if (c = 'X' ∨ c = 'Y') ∧ ¬ '.' ∈ (c :: rest) then some (c :: rest)
    else coordsNoPeriodSearch rest

/-- Search of `coordsperiod_re`: first position whose character is `X` or
`Y`; returns the suffix starting there. -/
def coordsPeriodSearch : List Char → Option (List Char)
  | [] => none
  | c :: rest =>
    if c = 'X' ∨ c = 'Y' then some (c :: rest)
    else coordsPeriodSearch rest

/-- Greedy capture of `\d*\.?\d*` at the head of `cs`. -/
def decDigits (cs : List Char) : List Char :=
  let ip := cs.takeWhile Char.isDigit
  match cs.drop ip.length with
  | '.' :: r => ip ++ '.' :: r.takeWhile Char.isDigit
  | _ => ip

/-- Python `float()` of a captured `\d*\.?\d*` token; raises
`ValueError` on an empty or lone-dot token as `float` does. -/
def pyFloatDec (cs : List Char) : Except PyErr ℚ :=
  let ip := cs.takeWhile Char.isDigit
  match cs.drop ip.length with
  | [] =>
    if ip = [] then .error .valueError else .ok (digitsVal ip : ℚ)
  | '.' :: fp =>
    if ip = [] ∧ fp = [] then .error .valueError
    else .ok ((digitsVal ip : ℚ) + (digitsVal fp : ℚ) / (10 : ℚ) ^ fp.length)
  | _ => .error .valueError

/-- Embedding of `Excellon.parse_number` applied to an optional regex capture, with
Python's error behaviour: a missing group raises `TypeError` (caught
by the caller), an empty capture makes `float()` raise `ValueError`
(uncaught, aborts the parse). -/
def parseCoord (zeros units : String) (g : Option (List Char))
    (cur : Option ℚ) : Except PyErr (Option ℚ) :=
  match g with
  | none => .ok cur  -- except TypeError: x = current_x
  | some tok =>
    if (stripSign tok).2 = [] then .error .valueError
    else .ok (some (parse_number zeros units (String.mk tok)))

/-- The per-iteration local state of `Excellon.parse_lines`. -/
structure ExcLoop where
  st : ExcSt
  current_tool : String
  in_header : Bool
  current_x : Option ℚ
  current_y : Option ℚ
  deriving DecidableEq, Repr

/-- Units-and-number-format branch of the header dispatch
(`units_re`), tried after the tool definition pattern; lines matching
nothing are ignored with a warning. -/
def excellonHeaderUnits (l : ExcLoop) (eline : String) : Except PyErr ExcLoop :=
  let unitsOf : String → Option (String × Option String) := fun s =>
    if s = "INCH" then some ("IN", none)
    else if s = "INCH,TZ" then some ("IN", some "T")
    else if s = "INCH,LZ" then some ("IN", some "L")
    else if s = "METRIC" then some ("MM", none)
    else if s = "METRIC,TZ" then some ("MM", some "T")
    else if s = "METRIC,LZ" then some ("MM", some "L")
    else none
  match unitsOf eline with
  | some (u, z) =>
    let st1 := { l.st with zeros := z.getD l.st.zeros }
    .ok { l with st := st1.convert_units u }
  | none => .ok l  -- line ignored

/-- One iteration of the `Excellon.parse_lines` loop: dispatches the
(stripped) line over the regex branches in source order. -/
def excellonStep (l : ExcLoop) (rawLine : String) : Except PyErr ExcLoop :=
  let eline := pyStripLine rawLine
  let cs := eline.toList
  -- ## Header Begin (M48) ##
  if eline = "M48" then .ok { l with in_header := true }
  -- ## Header End ## (M95 or %)
  else if eline = "M95" ∨ eline = "%" then .ok { l with in_header := false }
  -- ## Alternative units format M71/M72 (detected anywhere) ##
  else if eline = "M71" then .ok { l with st := l.st.convert_units "MM" }
  else if eline = "M72" then .ok { l with st := l.st.convert_units "IN" }
  else if ¬ l.in_header then
    -- ## Tool change ## (toolsel_re = ^T(\d+))
    if cs.head? = some 'T' ∧ ((cs.drop 1).head?.elim false Char.isDigit) then
      .ok { l with current_tool :=
            toString (digitsVal ((cs.drop 1).takeWhile Char.isDigit)) }
    else
      -- ## Coordinates without period ##
      match coordsNoPeriodSearch cs with
      | some suffix => do
        let gx := (afterLast 'X' suffix).map signedDigits
        let gy := (afterLast 'Y' suffix).map signedDigits
        let x ← parseCoord l.st.zeros l.st.units gx l.current_x
        let y ← parseCoord l.st.zeros l.st.units gy l.current_y
        match x, y with
        | some xv, some yv =>
          let st1 := { l.st with
            drills := l.st.drills ++ [⟨(xv, yv), l.current_tool⟩] }
          .ok { l with current_x := x, current_y := y, st := st1 }
        | _, _ => .ok { l with current_x := x, current_y := y }
      | none =>
        -- ## Coordinates with period: Use literally. ##
        match coordsPeriodSearch cs with
        | some suffix => do
          let gx := (afterLast 'X' suffix).map
            (fun r => match r with
              | '-' :: r' => '-' :: decDigits r'
              | '+' :: r' => '+' :: decDigits r'
              | r' => decDigits r')
          let gy := (afterLast 'Y' suffix).map
            (fun r => match r with
              | '-' :: r' => '-' :: decDigits r'
              | '+' :: r' => '+' :: decDigits r'
              | r' => decDigits r')
          let x ← match gx with
            | none => pure l.current_x
            | some tok => do
              let v ← pyFloatDec (stripSign tok).2
              pure (some (if (stripSign tok).1 then -v else v))
          let y ← match gy with
            | none => pure l.current_y
            | some tok => do
              let v ← pyFloatDec (stripSign tok).2
              pure (some (if (stripSign tok).1 then -v else v))
          match x, y with
          | some xv, some yv =>
            let st1 := { l.st with
              drills := l.st.drills ++ [⟨(xv, yv), l.current_tool⟩] }
            .ok { l with current_x := x, current_y := y, st := st1 }
          | _, _ => .ok { l with current_x := x, current_y := y }
        | none => .ok l  -- line ignored
  else
    -- #### Header ####
    -- ## Tool definitions ## (toolset_re)
    match cs with
    | 'T' :: rest =>
      let ds := rest.takeWhile Char.isDigit
      let rest' := rest.drop ds.length
      if ds ≠ [] ∧ (rest'.head?.elim false (· ∈ (['C', 'F', 'S', 'B', 'H', 'T'] : List Char))) then
        match (afterLast 'C' rest').map decDigits with
        | some ctok => do
          let c ← pyFloatDec ctok
          .ok { l with st := { l.st with
                tools := dictSet (toString (digitsVal ds)) c l.st.tools } }
        | none => .error .typeError  -- float(None) in spec["C"]
      else excellonHeaderUnits l eline
    | _ => excellonHeaderUnits l eline

/-- Shallow embedding of `Excellon.parse_lines`: fold the step over
the lines; an uncaught exception aborts the parse (the method
re-raises it). -/
def excellonParseLines (lines : List String) : Except PyErr ExcSt :=
  (lines.foldlM excellonStep ⟨ExcSt.init, "", false, none, none⟩).map (·.st)

/-- The Excellon file of claim C2. -/
def c2File : List String :=
  ["M48", "INCH,LZ", "T01C0.0100", "%", "T01", "X01Y01"]

/-! ## `CNCjob.generate_from_excellon_by_tool`
(src/fcCamlib/cncjob.py, lines 101-193)

The tool specification dictionaries `{"C": diameter}` of an Excellon
object are modelled by `ToolSpec`.  G-Code is modelled as a list of
tokens, one per `gcode += ...` fragment of the source. -/

/-- A Python dict `{"C": diameter}` describing one Excellon tool. -/
structure ToolSpec where
  C : ℚ
  deriving DecidableEq, Repr

/-- Python 3 comparison of two dicts: `dict` defines no ordering, so
`<` raises `TypeError`. -/
def pyDictLt (_ _ : ToolSpec) : Except PyErr Bool := .error .typeError

/-- Insert into a sorted list using a fallible comparator (models the
comparisons done by Python's `sorted`). -/
def pyInsertBy (lt : β → β → Except PyErr Bool) (key : α → β) (x : α) :
    List α → Except PyErr (List α)
  | [] => .ok [x]
  | y :: r => do
    let b ← lt (key x) (key y)
    if b then .ok (x :: y :: r)
    else do
      let r' ← pyInsertBy lt key x r
      .ok (y :: r')

/-- Python `sorted(xs, key=key)`: performs no comparison on lists of
length ≤ 1 and otherwise compares keys with `<`, propagating any
`TypeError` the comparison raises. -/
def pySorted (lt : β → β → Except PyErr Bool) (key : α → β) :
    List α → Except PyErr (List α)
  | [] => .ok []
  | x :: r => do
    let r' ← pySorted lt key r
    pyInsertBy lt key x r'

/-- G-Code fragments, one constructor per `gcode += ...` in
`generate_from_excellon_by_tool`. -/
inductive GTok where
  | unitcode (s : String)       -- "G20"/"G21"
  | absolutecode                -- "G90"
  | feedminutecode              -- "G94"
  | feedrate (f : ℚ)            -- "F%.2f"
  | rapidZ (z : ℚ)              -- "G00 Z%.4f"
  | spindleOn (speed : Option ℤ)  -- "M03 S%d" / "M03"
  | toolSlot (t : ℤ)            -- "T%d"
  | spindleStop                 -- "M5"
  | toolChange                  -- "M6"
  | msgChangeTool (dia : ℚ)     -- "(MSG, Change to tool dia=%.4f)"
  | machineStop                 -- "M0"
  | rapidXY (x y : ℚ)           -- "G00 X%.4fY%.4f"
  | cutZ (z : ℚ)                -- "G01 Z%.4f"
  | cutZUpToZero                -- "G01 Z0"
  | spindleOff                  -- "M05"
  deriving DecidableEq, Repr

/-- The `CNCjob` attributes read by the generator, with the
constructor defaults. -/
structure CNCSt where
  units : String := "in"
  z_cut : ℚ := -2/1000
  z_move : ℚ := 1/10
  feedrate : ℚ := 3
  spindlespeed : Option ℤ := none
  deriving DecidableEq, Repr

/-- Lookup in the `{"IN": "G20", "MM": "G21"}` dict; a missing key
raises `KeyError`. -/
def unitcodeDict (u : String) : Except PyErr String :=
  if u = "IN" then .ok "G20"
  else if u = "MM" then .ok "G21"
  else .error .keyError

/-- Grouping of the drills by tool, restricted to `tools` (the
`points` dict: `points[drill['tool']].append(drill['point'])` with the
`KeyError` branch creating the entry). -/
def groupPoints (drills : List ExcDrill) (tools : List String) :
    List (String × List (ℚ × ℚ)) :=
  drills.foldl
    (fun acc d =>
      if d.tool ∈ tools then
        if acc.any (fun e => e.1 = d.tool) then
          acc.map fun e => if e.1 = d.tool then (e.1, e.2 ++ [d.point]) else e
        else acc ++ [(d.tool, [d.point])]
      else acc)
    []

/-- Python dict lookup in an association list, raising `KeyError` when
missing. -/
def dictGet (k : String) : List (String × α) → Except PyErr α
  | [] => .error .keyError
  | (k', v) :: r => if k' = k then .ok v else dictGet k r

/-- Shallow embedding of `CNCjob.generate_from_excellon_by_tool` for
the call `tools="all"`: sorts `exobj.tools.items()` with
`key=lambda x: x[1]` (the spec dict!), groups the drill points by
tool, and emits the G-Code blocks. -/
def generate_from_excellon_by_tool (cnc : CNCSt)
    (exTools : List (String × ToolSpec)) (exDrills : List ExcDrill)
    (toolchange : Bool) (toolchangez : ℚ) : Except PyErr (List GTok) := do
  -- sorted_tools = sorted(exobj.tools.items(), key=lambda x: x[1])
  let sorted_tools ← pySorted pyDictLt (fun x => x.2) exTools
  -- tools = [i[0] for i in sorted_tools]
  let tools := sorted_tools.map (·.1)
  -- Points (Group by tool)
  let points := groupPoints exDrills tools
  -- Initialization
  let uc ← unitcodeDict (pyToUpper cnc.units)
  let header : List GTok :=
    [.unitcode uc, .absolutecode, .feedminutecode, .feedrate cnc.feedrate,
     .rapidZ cnc.z_move, .spindleOn cnc.spindlespeed]
  -- for tool in tools: ...
  let body ← tools.foldlM
    (fun (acc : List GTok) tool => do
      if points.any (fun e => e.1 = tool) then
        let tc : List GTok ← do
          if toolchange then
            let spec ← dictGet tool exTools
            pure [.rapidZ toolchangez,
                  .toolSlot (digitsVal tool.toList : ℤ), .spindleStop,
                  .toolChange, .msgChangeTool spec.C, .machineStop,
                  .spindleOn cnc.spindlespeed]
          else pure []
        let pts ← dictGet tool points
        let drillToks := pts.flatMap fun p =>
          [GTok.rapidXY p.1 p.2, .cutZ cnc.z_cut, .cutZUpToZero,
           .rapidZ cnc.z_move]
        pure (acc ++ tc ++ drillToks)
      else pure acc)
    []
  .ok (header ++ body ++ [.rapidXY 0 0, .spindleOff])

/-! ## Gerber circular interpolation, single-quadrant mode
(src/fcCamlib/gerber.py, lines 696-749, and `arc_angle`, lines 30-36)

Coordinates are floats; we model them as real numbers.  `numpy.sqrt`
is `Real.sqrt` and `numpy.arctan2` is the argument of the
corresponding complex number. -/

/-- Embedding of `numpy.arctan2 y x`: the argument of `x + y*i`, in
(-π, π]. -/
noncomputable def arctan2 (y x : ℝ) : ℝ := Complex.arg (x + y * Complex.I)

/-- Embedding of `arc_angle(start, stop, direction)` from
src/fcCamlib/gerber.py: the angle swept from `start` to `stop` in the
given direction. -/
noncomputable def arc_angle (start stop : ℝ) (direction : String) : ℝ :=
  let stop1 := if direction = "ccw" ∧ stop ≤ start
    then stop + 2 * Real.pi else stop
  let stop2 := if direction = "cw" ∧ stop1 ≥ start
    then stop1 - 2 * Real.pi else stop1
  |stop2 - start|

/-- The data determining the arc accepted by the single-quadrant
candidate search: center, radius and start/stop angles as passed to
`arc(...)`, and the checked angle. -/
structure ArcResult where
  center : ℝ × ℝ
  radius : ℝ
  start : ℝ
  stop : ℝ
  angle : ℝ

/-- The four center candidates, in source order:
`[i+x, j+y], [-i+x, j+y], [i+x, -j+y], [-i+x, -j+y]` relative to the
current point. -/
noncomputable def sqCandidates (cx cy i j : ℝ) : List (ℝ × ℝ) :=
  [(i + cx, j + cy), (-i + cx, j + cy), (i + cx, -j + cy), (-i + cx, -j + cy)]

open scoped Classical in
/-- The candidate loop of the single-quadrant branch of
`Gerber.parse_lines`.  The pair `(i, j)` is threaded through because
the source mutates `i` and `j` in place when a candidate passes the
radius test. -/
noncomputable def sqResolveGo (cx cy x y : ℝ) (dir : String) :
    List (ℝ × ℝ) → ℝ → ℝ → Option ArcResult
  | [], _, _ => none
  | c :: rest, i, j =>
    let radius := Real.sqrt (i ^ 2 + j ^ 2)
    -- Make sure radius to start is the same as radius to end.
    let radius2 := Real.sqrt ((c.1 - x) ^ 2 + (c.2 - y) ^ 2)
    if radius2 < radius * 0.95 ∨ radius2 > radius * 1.05 then
      sqResolveGo cx cy x y dir rest i j  -- Not a valid center.
    else
      -- Correct i and j and continue as with multi-quadrant.
      let i' := c.1 - cx
      let j' := c.2 - cy
      let start := arctan2 (-j') (-i')
      let stop := arctan2 (-c.2 + y) (-c.1 + x)
      let angle := |arc_angle start stop dir|
      if angle ≤ (Real.pi + 1e-6) / 2 then
        some ⟨c, radius, start, stop, angle⟩
      else
        sqResolveGo cx cy x y dir rest i' j'

/-- Embedding of the single-quadrant arc resolution: current point
`(cx, cy)`, end point `(x, y)`, parsed offsets `(i, j)`, direction
`"cw"` or `"ccw"`. -/
noncomputable def singleQuadrantResolve (cx cy x y i j : ℝ)
    (dir : String) : Option ArcResult :=
  sqResolveGo cx cy x y dir (sqCandidates cx cy i j) i j

/-- Acceptance condition as the specification words it: the radius to
the start point and the radius to the end point agree within 5%, and
the subtended angle is at most 90° plus a small epsilon. -/
noncomputable def specAccepts (cx cy x y : ℝ) (dir : String)
    (c : ℝ × ℝ) : Prop :=
  let rStart := Real.sqrt ((c.1 - cx) ^ 2 + (c.2 - cy) ^ 2)
  let rEnd := Real.sqrt ((c.1 - x) ^ 2 + (c.2 - y) ^ 2)
  (rStart * 0.95 ≤ rEnd ∧ rEnd ≤ rStart * 1.05) ∧
  |arc_angle (arctan2 (cy - c.2) (cx - c.1))
      (arctan2 (y - c.2) (x - c.1)) dir| ≤ (Real.pi + 1e-6) / 2

open scoped Classical in
/-- Spec-side description of the search: the first candidate, in the
fixed enumeration order, satisfying the acceptance condition
determines the arc. -/
noncomputable def specResolve (cx cy x y i j : ℝ) (dir : String) :
    Option ArcResult :=
  ((sqCandidates cx cy i j).find?
      (fun c => decide (specAccepts cx cy x y dir c))).map
    fun c =>
      ⟨c, Real.sqrt ((c.1 - cx) ^ 2 + (c.2 - cy) ^ 2),
       arctan2 (cy - c.2) (cx - c.1), arctan2 (y - c.2) (x - c.1),
       |arc_angle (arctan2 (cy - c.2) (cx - c.1))
           (arctan2 (y - c.2) (x - c.1)) dir|⟩

/-! ## ApertureMacro (src/fcCamlib/aperture.py)

`make_geometry` / `parse_content` are embedded as state transformers
on the object's attributes.  Python's `eval` on arithmetic expression
strings and `str` on floats are deterministic pure functions of their
argument; they are taken as parameters (`pyEval`, `showVal`).  The
shapely geometry built by the primitive makers is represented by a
constructor tree (`AMGeo`); two equal trees denote geometrically
identical shapes. -/

/-- Geometry built by `make_geometry`: the empty polygon it starts
from, unions/differences applied per primitive, and the shapes the
`make_*` helpers construct from their (padded) modifier lists. -/
inductive AMGeo where
  | emptyPoly
  | union (a b : AMGeo)
  | difference (a b : AMGeo)
  | circle (dia x y : ℚ)
  | vectorline (width xs ys xe ye angle : ℚ)
  | centerline (width height x y angle : ℚ)
  | lowerleftline (width height x y angle : ℚ)
  | outline (points : List (List ℚ)) (angle : ℚ)
  | polygon (nverts : ℤ) (x y dia angle : ℚ)
  | moire (mods : List ℚ)
  | thermal (mods : List ℚ)
  deriving DecidableEq, Repr

/-- The attributes of an `ApertureMacro` object. -/
structure AMSt where
  name : Option String
  raw : String
  primitives : List (List ℚ)
  locvars : List (String × ℚ)
  geometry : AMGeo
  deriving DecidableEq, Repr

/-- Python `int()` truncation of a rational toward zero. -/
def pyInt (q : ℚ) : ℤ := q.num / q.den

/-- A character of the class `[0-9a-zA-Z]` used by the variable
regexes. -/
def isAlnumAscii (c : Char) : Bool :=
  c.isDigit || ('a' ≤ c && c ≤ 'z') || ('A' ≤ c && c ≤ 'Z')

/-- Substitution `re.sub(r'\$name(?![0-9a-zA-Z])', repl, ·)`: replace
every occurrence of `$name` not followed by an alphanumeric
character. -/
def subVarAux (pat repl : List Char) : List Char → List Char
  | [] => []
  | c :: rest =>
    if c = '$' ∧ pat = rest.take pat.length ∧ pat ≠ [] ∧
        ¬ ((rest.drop pat.length).head?.elim false isAlnumAscii) then
      repl ++ subVarAux pat repl (rest.drop pat.length)
    else c :: subVarAux pat repl rest
termination_by l => l.length
decreasing_by
  · simp only [List.length_drop, List.length_cons]
    omega
  · simp

/-- Substitution of one macro variable by its printed value. -/
def subVar (name repl val : String) : String :=
  String.mk (subVarAux name.toList repl.toList val.toList)

/-- Substitution `re.sub(r'\$[0-9a-zA-Z](?![0-9a-zA-Z])', "0", ·)`:
zero out the remaining single-character variables. -/
def zeroVarsAux : List Char → List Char
  | [] => []
  | '$' :: c :: rest =>
    if isAlnumAscii c ∧ ¬ (rest.head?.elim false isAlnumAscii) then
      '0' :: zeroVarsAux rest
    else '$' :: zeroVarsAux (c :: rest)
  | c :: rest => c :: zeroVarsAux rest

/-- Substitution `re.sub(r'[xX]', "*", ·)`. -/
def xToStar (l : List Char) : List Char :=
  l.map fun c => if c = 'x' ∨ c = 'X' then '*' else c

/-- The full modifier-expression preprocessing of `parse_content`:
replace known variables in insertion order, zero the others, replace
`x`/`X` by `*`. -/
def amSubstitute (showVal : ℚ → String) (locvars : List (String × ℚ))
    (val : String) : String :=
  let v1 := locvars.foldl (fun v e => subVar e.1 (showVal e.2) v) val
  String.mk (xToStar (zeroVarsAux v1.toList))

/-- Cleanup done at the top of `parse_content`:
`raw.replace('\n', '').replace('\r', '').strip(" *")`. -/
def amClean (s : String) : String :=
  String.mk (List.rdropWhile (· ∈ ([' ', '*'] : List Char))
    (List.dropWhile (· ∈ ([' ', '*'] : List Char))
      ((s.toList.filter (· ≠ '\n')).filter (· ≠ '\r'))))

/-- Processing of one `*`-separated part of the macro body: comments,
variable definitions, primitives; anything else is ignored with a
warning.  The accumulator is the pair (locvars, primitives). -/
def amPart (pyEval : String → ℚ) (showVal : ℚ → String)
    (acc : List (String × ℚ) × List (List ℚ)) (part : String) :
    List (String × ℚ) × List (List ℚ) :=
  match part.toList with
  | [] => acc
  | c :: rest =>
    if c = '0' then acc  -- ### Comments. Ignored.
    else if c = '$' then
      -- ### Variables (amvar_re)
      let nm := rest.takeWhile isAlnumAscii
      if nm ≠ [] ∧ (rest.drop nm.length).head? = some '=' then
        let val := String.mk (rest.drop (nm.length + 1))
        (dictSet (String.mk nm)
          (pyEval (amSubstitute showVal acc.1 val)) acc.1, acc.2)
      else acc  -- warning: unknown syntax
    else if '1' ≤ c ∧ c ≤ '9' then
      -- ### Primitives (amprim_re)
      let processed := amSubstitute showVal acc.1 part
      let elements := processed.splitOn ","
      (acc.1, acc.2 ++ [elements.map pyEval])
    else acc  -- warning: unknown syntax

/-- Embedding of `ApertureMacro.parse_content`. -/
def amParseContent (pyEval : String → ℚ) (showVal : ℚ → String)
    (st : AMSt) : AMSt :=
  let cleaned := amClean st.raw
  let acc := (cleaned.splitOn "*").foldl (amPart pyEval showVal)
    (st.locvars, [])
  { st with raw := cleaned, locvars := acc.1, primitives := acc.2 }

/-- Embedding of `ApertureMacro.default2zero`. -/
def default2zero (n : ℕ) (mods : List ℚ) : List ℚ :=
  mods ++ List.replicate (n - mods.length) 0

/-- The primitive makers (`makers` dict in `make_geometry`); an
unknown primitive code raises `KeyError`, a too-short modifier list
where the source indexes past the end raises an error.  The moire and
thermal makers build their geometry purely from the 9 resp. 6 padded
modifiers and always return polarity 1. -/
def amMaker (code : String) (mods : List ℚ) : Except PyErr (ℤ × AMGeo) :=
  if code = "1" then
    match default2zero 4 mods with
    | pol :: dia :: x :: y :: _ => .ok (pyInt pol, .circle dia x y)
    | _ => .error .valueError
  else if code = "2" ∨ code = "20" then
    match default2zero 7 mods with
    | pol :: w :: xs :: ys :: xe :: ye :: a :: _ =>
      .ok (pyInt pol, .vectorline w xs ys xe ye a)
    | _ => .error .valueError
  else if code = "21" then
    match default2zero 6 mods with
    | pol :: w :: h :: x :: y :: a :: _ =>
      .ok (pyInt pol, .centerline w h x y a)
    | _ => .error .valueError
  else if code = "22" then
    match default2zero 6 mods with
    | pol :: w :: h :: x :: y :: a :: _ =>
      .ok (pyInt pol, .lowerleftline w h x y a)
    | _ => .error .valueError
  else if code = "4" then
    match mods with
    | pol :: nq :: rest =>
      let n := (pyInt nq).toNat
      let points := (List.range (n + 1)).map
        fun i => (pol :: nq :: rest).drop (2 * i + 2) |>.take 2
      match mods.drop (2 * n + 4) with
      | angle :: _ => .ok (pyInt pol, .outline points angle)
      | [] => .error .valueError  -- IndexError on mods[2*n+4]
    | _ => .error .valueError
  else if code = "5" then
    match default2zero 6 mods with
    | pol :: nverts :: x :: y :: dia :: a :: _ =>
      .ok (pyInt pol, .polygon (pyInt nverts) x y dia a)
    | _ => .error .valueError
  else if code = "6" then .ok (1, .moire (default2zero 9 mods))
  else if code = "7" then .ok (1, .thermal (default2zero 6 mods))
  else .error .keyError

/-- Embedding of `ApertureMacro.make_geometry`: store the modifiers
as local variables `$1`, `$2`, ..., reset the primitive list and the
geometry, run `parse_content`, then union/difference the primitives'
geometry according to their polarity. -/
def amMakeGeometry (pyEval : String → ℚ) (showVal : ℚ → String)
    (st : AMSt) (modifiers : List ℚ) : Except PyErr (AMGeo × AMSt) := do
  let locvars0 := modifiers.enum.map fun e => (toString (e.1 + 1), e.2)
  let st1 : AMSt :=
    { st with locvars := locvars0, primitives := [],
              geometry := .emptyPoly }
  let st2 := amParseContent pyEval showVal st1
  let geo ← st2.primitives.foldlM
    (fun g prim => do
      match prim with
      | [] => .error .valueError  -- IndexError on primitive[0]
      | p0 :: rest => do
        let (pol, pg) ← amMaker (toString (pyInt p0)) rest
        if pol = 1 then pure (AMGeo.union g pg)
        else if pol = 0 then pure (AMGeo.difference g pg)
        else pure g)
    st2.geometry
  .ok (geo, { st2 with geometry := geo })

/-! ## `Geometry.paint_connect` (src/fcCamlib/geometry.py, lines 621-715)

Paths are lists of rational points.  The two shapely operations the
method applies to the straight connector — buffering it to a
tool-width corridor and testing containment in the boundary polygon
(`walk_cut.within(boundary)`), and taking its length
(`walk_path.length`) — are external library calls and are abstracted
into an operations record; `corridorWithin a b` stands for
`LineString([a,b]).buffer(tooldia/2).within(boundary)` and
`walkLength a b` for `LineString([a,b]).length`. -/

/-- A point of the plane. -/
abbrev Pt := ℚ × ℚ

/-- A toolpath (`coords` of a LineString). -/
abbrev Path := List Pt

/-- The shapely operations used on the candidate connector, with the
boundary polygon and the tool diameter baked in. -/
structure PaintOps where
  corridorWithin : Pt → Pt → Bool
  walkLength : Pt → Pt → ℚ

/-- First coordinate of a path (`o.coords[0]`). -/
def firstPt (p : Path) : Pt := p.headD (0, 0)

/-- Last coordinate of a path (`o.coords[-1]`). -/
def lastPt (p : Path) : Pt := p.getLastD (0, 0)

/-- Squared Euclidean distance, the measure minimized by the rtree
`nearest` query. -/
def dist2 (a b : Pt) : ℚ := (a.1 - b.1) ^ 2 + (a.2 - b.2) ^ 2

/-- The endpoint of path `p` nearest to `pt` (the paths are indexed
by their first and last coordinates, `get_pts`). -/
def bestEndpoint (pt : Pt) (p : Path) : Pt :=
  if dist2 (firstPt p) pt ≤ dist2 (lastPt p) pt then firstPt p else lastPt p

/-- Model of `storage.nearest(pt)` followed by `storage.remove`:
returns the matched endpoint, the owning path, and the remaining
storage; `none` when the storage is empty (`StopIteration`). -/
def nearestExtract (pt : Pt) : List Path → Option (Pt × Path × List Path)
  | [] => none
  | p :: rest =>
    match nearestExtract pt rest with
    | none => some (bestEndpoint pt p, p, rest)
    | some (q, pb, rem) =>
      if dist2 (bestEndpoint pt p) pt ≤ dist2 q pt then
        some (bestEndpoint pt p, p, rest)
      else some (q, pb, p :: rem)

lemma nearestExtract_length {pt : Pt} :
    ∀ {l : List Path} {q : Pt} {pb : Path} {rem : List Path},
      nearestExtract pt l = some (q, pb, rem) →
      rem.length + 1 = l.length := by
  intro l
  induction l with
  | nil => intro q pb rem h; simp [nearestExtract] at h
  | cons p rest ih =>
    intro q pb rem h
    rw [nearestExtract] at h
    rcases hrec : nearestExtract pt rest with - | ⟨q', pb', rem'⟩ <;>
      simp only [hrec] at h
    · simp only [Option.some.injEq, Prod.mk.injEq] at h
      rw [← h.2.2]
      simp
    · split_ifs at h <;>
        simp only [Option.some.injEq, Prod.mk.injEq] at h
      · rw [← h.2.2]
        simp
      · rw [← h.2.2]
        have := ih hrec
        simp only [List.length_cons]
        omega

/-- The main loop of `paint_connect`: take the nearest remaining
path, reverse it if its last (and not its first) endpoint was the
nearest match, splice it onto the current path when the tool-width
corridor lies within the boundary and is shorter than `max_walk`,
otherwise lift the tool (emit the current path) and continue from the
candidate. -/
def paintLoop (ops : PaintOps) (mw : ℚ) :
    List Path → Path → List Path → List Path
  | storage, geo, opt =>
    match hn : nearestExtract (lastPt geo) storage with
    | none => opt ++ [geo]  -- StopIteration: insert geo
    | some (pt, cand0, storage') =>
      -- If last point in geometry is the nearest then reverse
      -- coordinates, but prefer the first one if last == first.
      let cand := if pt ≠ firstPt cand0 ∧ pt = lastPt cand0 then
        cand0.reverse else cand0
      -- walk_cut.within(boundary) and walk_path.length < max_walk
      if ops.corridorWithin (lastPt geo) pt = true ∧
          ops.walkLength (lastPt geo) pt < mw then
        paintLoop ops mw storage' (geo ++ cand) opt
      else
        paintLoop ops mw storage' cand (opt ++ [geo])
termination_by storage _ _ => storage.length
decreasing_by
  all_goals
    have := nearestExtract_length hn
    omega

/-- Shallow embedding of `Geometry.paint_connect`.  `max_walk = None`
(and the falsy `0.0`) defaults to ten tool diameters via the Python
`or`; an empty storage raises `StopIteration` out of the initial
`nearest` call, which sits before the `try` block. -/
def paint_connect (ops : PaintOps) (storage : List Path) (tooldia : ℚ)
    (max_walk : Option ℚ) : Except PyErr (List Path) :=
  -- max_walk = max_walk or 10 * tooldia
  let mw := match max_walk with
    | none => 10 * tooldia
    | some m => if m = 0 then 10 * tooldia else m
  match nearestExtract (0, 0) storage with
  | none => .error .stopIteration
  | some (_, geo, storage') => .ok (paintLoop ops mw storage' geo [])

/-- The loop as the specification describes it: a candidate is
spliced onto the current path without a tool lift if and only if the
straight connector's tool-width corridor lies entirely within the
boundary polygon and its length is strictly less than `maxWalk`; the
candidate's point order is reversed before splicing when its last
endpoint, not its first, was the nearest match. -/
def specPaintLoop (ops : PaintOps) (mw : ℚ) :
    List Path → Path → List Path → List Path
  | storage, geo, opt =>
    match hn : nearestExtract (lastPt geo) storage with
    | none => opt ++ [geo]
    | some (pt, cand0, storage') =>
      let cand := if pt = lastPt cand0 ∧ pt ≠ firstPt cand0 then
        cand0.reverse else cand0
      if ops.corridorWithin (lastPt geo) pt = true ∧
          ops.walkLength (lastPt geo) pt < mw then
        specPaintLoop ops mw storage' (geo ++ cand) opt
      else
        specPaintLoop ops mw storage' cand (opt ++ [geo])
termination_by storage _ _ => storage.length
decreasing_by
  all_goals
    have := nearestExtract_length hn
    omega

/-- `paint_connect` as the specification describes it, with the
default `maxWalk` of ten tool diameters when none is given. -/
def spec_paint_connect (ops : PaintOps) (storage : List Path)
    (tooldia : ℚ) (max_walk : Option ℚ) : Except PyErr (List Path) :=
  let mw := max_walk.getD (10 * tooldia)
  match nearestExtract (0, 0) storage with
  | none => .error .stopIteration
  | some (_, geo, storage') => .ok (specPaintLoop ops mw storage' geo [])

/-! ## `Geometry.clear_polygon` (src/fcCamlib/geometry.py, lines 453-520)

The shapely polygon type and its `buffer`/`area` operations, and the
boundary rings collected into the rtree storage (`p.exterior` and
`p.interiors` of each polygon of the current multipolygon, exploded),
are abstracted into an operations record over abstract types `π`
(polygons) and `ρ` (rings).  The unbounded `while True` loop is given
explicit fuel; the termination theorem shows some finite fuel always
suffices, so the fuel is an artifact of the embedding, not of the
algorithm. -/

/-- Shapely operations used by `clear_polygon`. -/
structure PolyOps (π ρ : Type) where
  area : π → ℚ
  buffer : π → ℚ → π
  rings : π → List ρ

/-- The `while True` loop of `clear_polygon`: shrink by `step`,
collect the boundary rings while the area stays positive, stop as
soon as it becomes non-positive.  Returns the collected rings and the
final (empty) polygon, or `none` if the fuel runs out. -/
def clearLoop {π ρ : Type} (ops : PolyOps π ρ) (step : ℚ) :
    ℕ → π → List ρ → Option (List ρ × π)
  | 0, _, _ => none
  | fuel + 1, current, acc =>
    let current' := ops.buffer current (-step)
    if ops.area current' > 0 then
      clearLoop ops step fuel current' (acc ++ ops.rings current')
    else
      some (acc, current')

/-- Shallow embedding of `Geometry.clear_polygon`: first an inward
buffer by half the tool diameter (whose rings seed the working set),
then the shrink loop with step `tooldia * (1 - overlap)`.  (The final
`paint_connect` lift-reduction pass on the collected rings is the
subject of C6 and is not repeated here.) -/
def clear_polygon {π ρ : Type} (ops : PolyOps π ρ) (polygon : π)
    (tooldia overlap : ℚ) (fuel : ℕ) : Option (List ρ × π) :=
  let current := ops.buffer polygon (-(tooldia / 2))
  clearLoop ops (tooldia * (1 - overlap)) fuel current (ops.rings current)

/-! ## `Gerber.parse_lines` error handling
(src/fcCamlib/gerber.py, lines 469-999, and `GerberParseError`,
lines 26-27)

The loop wraps the whole line dispatch in one `try`: `line_num`
starts at 0 and is incremented at the top of each iteration, the line
is stripped of ` \r\n`, and the chain of regex branches either
handles the line (possibly raising), or falls through to a warning.
Any exception is re-raised as `GerberParseError("Line %d: %s" %
(line_num, gline))`.  The dispatch over the (many, geometry-heavy)
branches is a parameter here; a concrete dispatcher covering the
operation-code, quadrant, comment and EOF branches of the source
instantiates it below. -/

/-- The exception `GerberParseError` with the data the format string
`"Line %d: %s"` interpolates: the 1-based line number and the
(stripped) text of the offending line. -/
structure GerberParseError where
  line : ℕ
  text : String
  deriving DecidableEq, Repr

/-- Outcome of dispatching one line over the regex branches. -/
inductive GLineResult (σ : Type) where
  | ok (st : σ)        -- some pattern matched, processing succeeded
  | unmatched          -- no pattern matched: warning, continue
  | raised (e : PyErr)  -- an exception escaped the branch
  deriving DecidableEq, Repr

/-- The `for gline in glines` loop inside the `try` block: the third
argument is `line_num` after its increment for the first remaining
line. -/
def gerberGo {σ : Type} (dispatch : σ → String → GLineResult σ) :
    List String → σ → ℕ → Except GerberParseError σ
  | [], st, _ => .ok st
  | gline :: rest, st, line_num =>
    -- gline = gline.strip(' \r\n')
    match dispatch st (pyStripLine gline) with
    | .ok st' => gerberGo dispatch rest st' (line_num + 1)
    | .unmatched => gerberGo dispatch rest st (line_num + 1)
    | .raised _ => .error ⟨line_num, pyStripLine gline⟩

/-- Shallow embedding of the `Gerber.parse_lines` loop with its
exception wrapper (`line_num = 0` before the loop, incremented before
each line). -/
def gerberParseLines {σ : Type} (dispatch : σ → String → GLineResult σ)
    (init : σ) (glines : List String) : Except GerberParseError σ :=
  gerberGo dispatch glines init 1

/-- The `Gerber` attributes touched by the concrete dispatcher
below. -/
structure GSt where
  apertures : List (String × ℚ)
  current_aperture : Option String
  current_operation_code : Option ℤ
  current_x : Option ℚ
  current_y : Option ℚ
  quadrant_mode : Option String
  poly_buffer : ℕ
  deriving DecidableEq, Repr

/-- Match of `opcode_re = ^D0?([123])\*$`. -/
def opcodeMatch (s : String) : Option ℤ :=
  match s.toList with
  | ['D', c, '*'] =>
    if c = '1' ∨ c = '2' ∨ c = '3' then
      some ((c.toNat - '0'.toNat : ℕ) : ℤ)
    else none
  | ['D', '0', c, '*'] =>
    if c = '1' ∨ c = '2' ∨ c = '3' then
      some ((c.toNat - '0'.toNat : ℕ) : ℤ)
    else none
  | _ => none

/-- A concrete dispatcher implementing, in source order, the
bare-operation-code branch (D03 flashes with the
`self.apertures[current_aperture]` lookup, whose `KeyError` is not
caught), the G74/G75 quadrant branch, the comment branch and the EOF
branch; all other lines fall through to the warning. -/
def gerberMiniDispatch (st : GSt) (gline : String) : GLineResult GSt :=
  -- ### Operation code alone, usually just D03 (Flash)
  match opcodeMatch gline with
  | some code =>
    let st1 := { st with current_operation_code := some code }
    if code = 3 then
      match st1.current_x, st1.current_y with
      | some _, some _ =>
        match st1.current_aperture with
        | none => .raised .keyError  -- self.apertures[None]
        | some a =>
          match dictGet a st1.apertures with
          | .error _ => .raised .keyError
          | .ok _ => .ok { st1 with poly_buffer := st1.poly_buffer + 1 }
      | _, _ => .raised .typeError  -- Point(None, None)
    else .ok st1
  | none =>
    -- ### G74/75* - Single or multiple quadrant arcs
    if gline = "G74*" then .ok { st with quadrant_mode := some "SINGLE" }
    else if gline = "G75*" then .ok { st with quadrant_mode := some "MULTI" }
    -- ## Comments (G04|G4)
    else if gline.toList.take 2 = ['G', '4'] ∨
        gline.toList.take 3 = ['G', '0', '4'] then .ok st
    -- ## EOF (M02*)
    else if gline.toList.take 4 = ['M', '0', '2', '*'] then .ok st
    else .unmatched

end FcCamlib

namespace FcCamlib

/-! ## Claim theorems for the number decoding and unit conversion -/

/-- C1: For every bare Excellon coordinate token, `parse_number`
decodes it as follows: in leading-zeros mode the token's float value
is divided by `10^(leadingZeros + remainingDigits - k)` with `k = 2`
for inch units and `k = 3` for metric units; in trailing-zeros mode it
is divided by the fixed divisor 10000 (inch) resp. 1000 (metric)
regardless of digit count.  For the token "1234" under inch units the
two modes disagree. -/
theorem parse_number_decodes (s : String) (h : isBareToken s) :
    (parse_number "L" "IN" s = specLeadingDecode 2 s ∧
     parse_number "L" "MM" s = specLeadingDecode 3 s ∧
     parse_number "T" "IN" s = specTrailingDecode 10000 s ∧
     parse_number "T" "MM" s = specTrailingDecode 1000 s) ∧
    parse_number "L" "IN" "1234" ≠ parse_number "T" "IN" "1234" := by
  have hin : pyToLower "IN" = "in" := by decide
  have hmm : ¬ pyToLower "MM" = "in" := by decide
  constructor
  · have hg := leadingzerosGroups_bare h
    simp only [parse_number, specLeadingDecode, specTrailingDecode,
      tokLeadingZeros, tokRemDigits, hin, hmm, hg, String.reduceEq,
      if_true, if_false, ite_true, ite_false, reduceIte, not_false_eq_true,
      and_self]
  · intro hcontra
    have h1234 : pyFloat "1234" = 1234 := by
      have hd : digitsVal ['1', '2', '3', '4'] = 1234 := by decide
      simp [pyFloat, stripSign, hd]
    have hgr : leadingzerosGroups "1234" = ([], ['1', '2', '3', '4']) := by decide
    simp only [parse_number, hin, hgr, h1234, String.reduceEq,
      if_true, if_false, ite_true, ite_false, reduceIte] at hcontra
    norm_num at hcontra

/-- Witness for C1 at the concrete token "0012". -/
theorem parse_number_decodes_witness :
    isBareToken "0012" ∧
      (parse_number "L" "IN" "0012" = specLeadingDecode 2 "0012" ∧
       parse_number "L" "MM" "0012" = specLeadingDecode 3 "0012" ∧
       parse_number "T" "IN" "0012" = specTrailingDecode 10000 "0012" ∧
       parse_number "T" "MM" "0012" = specTrailingDecode 1000 "0012") ∧
      parse_number "L" "IN" "1234" ≠ parse_number "T" "IN" "1234" := by
  refine ⟨by decide, ?_⟩
  exact parse_number_decodes "0012" (by decide)

/-- C4: converting a document to its current units (compared
case-insensitively) yields factor exactly 1 and an unchanged document,
and converting IN ≥ MM ≥ IN multiplies the coordinates by 25.4 and
then by 1/25.4, reproducing them exactly (hence well within the
claimed 1e-9 relative tolerance). -/
theorem convert_units_roundtrip (g : GeoDoc) (u : String)
    (hsame : pyToUpper u = pyToUpper g.units) (hin : pyToUpper g.units = "IN") :
    (GeoDoc.convert_units g u = (1, g)) ∧
    ((GeoDoc.convert_units g "MM").1 = 254 / 10 ∧
     (GeoDoc.convert_units ((GeoDoc.convert_units g "MM").2) "IN").1 = 10 / 254 ∧
     (GeoDoc.convert_units ((GeoDoc.convert_units g "MM").2) "IN").2.coords
        = g.coords) := by
  constructor
  · unfold GeoDoc.convert_units
    rw [if_pos hsame]
  · have h1 : GeoDoc.convert_units g "MM"
        = ((254 : ℚ) / 10,
           GeoDoc.scale { g with units := "MM" } ((254 : ℚ) / 10)) := by
      unfold GeoDoc.convert_units
      rw [if_neg (by rw [hin]; decide), if_pos (by decide)]
    have h2 : GeoDoc.convert_units
          (GeoDoc.scale { g with units := "MM" } ((254 : ℚ) / 10)) "IN"
        = ((10 : ℚ) / 254,
           GeoDoc.scale { GeoDoc.scale { g with units := "MM" } ((254 : ℚ) / 10)
                            with units := "IN" } ((10 : ℚ) / 254)) := by
      have hu : (GeoDoc.scale { g with units := "MM" } ((254 : ℚ) / 10)).units
          = "MM" := rfl
      unfold GeoDoc.convert_units
      rw [hu, if_neg (by decide), if_neg (by decide), if_pos (by decide)]
    rw [h1]
    simp only [h2]
    refine ⟨trivial, trivial, ?_⟩
    simp only [GeoDoc.scale, List.map_map]
    conv_rhs => rw [← List.map_id g.coords]
    apply List.map_congr_left
    intro p _
    obtain ⟨p1, p2⟩ := p
    simp only [Function.comp_apply, id, Prod.mk.injEq]
    constructor <;> ring

/-- Witness for C4 at a concrete document. -/
theorem convert_units_roundtrip_witness :
    (pyToUpper "in" = pyToUpper (GeoDoc.mk "IN" [(1, 2), (-3, 0)]).units ∧
     pyToUpper (GeoDoc.mk "IN" [(1, 2), (-3, 0)]).units = "IN") ∧
    (GeoDoc.convert_units (GeoDoc.mk "IN" [(1, 2), (-3, 0)]) "in"
        = (1, GeoDoc.mk "IN" [(1, 2), (-3, 0)])) ∧
    ((GeoDoc.convert_units (GeoDoc.mk "IN" [(1, 2), (-3, 0)]) "MM").1 = 254 / 10 ∧
     (GeoDoc.convert_units
        ((GeoDoc.convert_units (GeoDoc.mk "IN" [(1, 2), (-3, 0)]) "MM").2) "IN").1
        = 10 / 254 ∧
     (GeoDoc.convert_units
        ((GeoDoc.convert_units (GeoDoc.mk "IN" [(1, 2), (-3, 0)]) "MM").2) "IN").2.coords
        = (GeoDoc.mk "IN" [(1, 2), (-3, 0)]).coords) := by
  refine ⟨⟨by decide, by decide⟩, ?_⟩
  exact convert_units_roundtrip (GeoDoc.mk "IN" [(1, 2), (-3, 0)]) "in"
    (by decide) (by decide)

/-- C10: converting to units that are neither "IN" nor "MM"
(case-insensitively) and differ from the current units returns factor
1 and leaves the document unchanged: the units keep their value and no
coordinate is modified. -/
theorem convert_units_unsupported (g : GeoDoc) (u : String)
    (h1 : pyToUpper u ≠ pyToUpper g.units)
    (h2 : pyToUpper u ≠ "MM") (h3 : pyToUpper u ≠ "IN") :
    GeoDoc.convert_units g u = (1, g) := by
  unfold GeoDoc.convert_units
  rw [if_neg h1, if_neg h2, if_neg h3]

set_option maxRecDepth 100000

/-- C2 counterexample: parsing the Excellon file
`M48 / INCH,LZ / T01C0.0100 / % / T01 / X01Y01` yields exactly one
drill, whose point is (1.0, 1.0) — and 1.0 is not near 0.0001 (it is
not even within 0.1 of it), contradicting the claimed point
(0.0001, 0.0001). -/
theorem excellon_c2_counterexample :
    excellonParseLines c2File =
      .ok ⟨"in", "L", [("1", 1/100)], [⟨(1, 1), "1"⟩]⟩ ∧
    ¬ |(1 : ℚ) - 1/10000| < 1/10 := by
  constructor
  · with_unfolding_all decide
  · rw [abs_of_pos (by norm_num)]
    norm_num

/-- C2 (amended): parsing the Excellon file
`M48 / INCH,LZ / T01C0.0100 / % / T01 / X01Y01` (tool T01 of diameter
0.0100, inch units, leading-zero format, one record `X01Y01`) produces
exactly one entry in the drills list, whose point is exactly
(1.0, 1.0): the leading-zero inch decode of the two-digit token "01"
divides by `10^(1 + 1 - 2) = 1`. -/
theorem excellon_c2_amended :
    (excellonParseLines c2File).map (fun st => st.drills)
      = .ok [⟨(1, 1), "1"⟩] := by
  with_unfolding_all decide

/-- C5 (code bug): `generate_from_excellon_by_tool` sorts
`exobj.tools.items()` with `key=lambda x: x[1]`, i.e. by the spec
dicts `{"C": diameter}` themselves, not by the diameters.  In
Python 3 dicts do not support `<`, so with two or more tools the sort
raises `TypeError` and no G-Code is produced at all — the tools are
never processed in ascending diameter order as the claim (and the
code's own comment) state.  With a single tool no comparison happens
and the generator runs to completion. -/
theorem cnc_generate_sort_raises :
    generate_from_excellon_by_tool {} [("1", ⟨1/100⟩), ("2", ⟨1/50⟩)]
        [⟨(1, 1), "1"⟩] false 0 = .error .typeError ∧
    generate_from_excellon_by_tool {} [("1", ⟨1/100⟩)]
        [⟨(1, 1), "1"⟩] false 0 =
      .ok [.unitcode "G20", .absolutecode, .feedminutecode, .feedrate 3,
           .rapidZ (1/10), .spindleOn none,
           .rapidXY 1 1, .cutZ (-2/1000), .cutZUpToZero, .rapidZ (1/10),
           .rapidXY 0 0, .spindleOff] := by
  constructor
  · with_unfolding_all decide
  · with_unfolding_all decide

open scoped Classical in
lemma sqResolveGo_eq_find (cx cy x y : ℝ) (dir : String)
    (cands : List (ℝ × ℝ)) (i j : ℝ)
    (hinv : ∀ c ∈ cands,
      (c.1 - cx) ^ 2 = i ^ 2 ∧ (c.2 - cy) ^ 2 = j ^ 2) :
    sqResolveGo cx cy x y dir cands i j
      = ((cands.find?
            (fun c => decide (specAccepts cx cy x y dir c))).map
          fun c =>
            ⟨c, Real.sqrt ((c.1 - cx) ^ 2 + (c.2 - cy) ^ 2),
             arctan2 (cy - c.2) (cx - c.1), arctan2 (y - c.2) (x - c.1),
             |arc_angle (arctan2 (cy - c.2) (cx - c.1))
                 (arctan2 (y - c.2) (x - c.1)) dir|⟩) := by
  induction cands generalizing i j with
  | nil => simp [sqResolveGo]
  | cons c rest ih =>
    obtain ⟨hc1, hc2⟩ := hinv c (List.mem_cons_self c rest)
    have hrs : Real.sqrt (i ^ 2 + j ^ 2)
        = Real.sqrt ((c.1 - cx) ^ 2 + (c.2 - cy) ^ 2) := by
      rw [hc1, hc2]
    have hstart : arctan2 (-(c.2 - cy)) (-(c.1 - cx))
        = arctan2 (cy - c.2) (cx - c.1) := by rw [neg_sub, neg_sub]
    have hstop : arctan2 (-c.2 + y) (-c.1 + x)
        = arctan2 (y - c.2) (x - c.1) := by
      rw [neg_add_eq_sub, neg_add_eq_sub]
    simp only [sqResolveGo]
    split_ifs with hrej hang
    · -- radius check failed: the spec predicate fails as well
      have hnacc : ¬ specAccepts cx cy x y dir c := by
        unfold specAccepts
        rintro ⟨⟨hl, hr⟩, -⟩
        rw [hrs] at hrej
        rcases hrej with h | h
        · exact absurd hl (not_le.mpr h)
        · exact absurd hr (not_le.mpr h)
      rw [List.find?_cons_of_neg _ (by simpa using hnacc)]
      exact ih i j fun c' hc' => hinv c' (List.mem_cons_of_mem _ hc')
    · -- accepted
      have hacc : specAccepts cx cy x y dir c := by
        unfold specAccepts
        push_neg at hrej
        rw [hrs] at hrej
        refine ⟨⟨not_lt.mp (fun h => absurd hrej.1 (not_le.mpr h)), hrej.2⟩, ?_⟩
        rwa [hstart, hstop] at hang
      rw [List.find?_cons_of_pos _ (by simpa using hacc)]
      simp only [Option.map_some']
      rw [hrs, hstart, hstop]
    · -- angle check failed: the spec predicate fails as well
      have hnacc : ¬ specAccepts cx cy x y dir c := by
        unfold specAccepts
        rintro ⟨-, hangle⟩
        rw [hstart, hstop] at hang
        exact hang hangle
      rw [List.find?_cons_of_neg _ (by simpa using hnacc)]
      refine ih (c.1 - cx) (c.2 - cy) fun c' hc' => ?_
      obtain ⟨h1', h2'⟩ := hinv c' (List.mem_cons_of_mem _ hc')
      constructor
      · rw [h1', hc1]
      · rw [h2', hc2]

lemma arctan2_zero_one : arctan2 0 1 = 0 := by
  simp [arctan2, Complex.arg_one]

lemma arctan2_one_zero : arctan2 1 0 = Real.pi / 2 := by
  simp [arctan2, Complex.arg_I]

lemma arc_angle_quarter_ccw :
    arc_angle 0 (Real.pi / 2) "ccw" = Real.pi / 2 := by
  have hpi := Real.pi_pos
  simp only [arc_angle, String.reduceEq, false_and, true_and, if_false,
    ite_false, ge_iff_le]
  rw [if_neg (by linarith), sub_zero, abs_of_pos (by positivity)]

/-- C3: in single-quadrant (G74) mode the parser tries the four
center sign candidates in the fixed source order `[+,+], [-,+],
[+,-], [-,-]` relative to the current point, accepts a candidate
exactly when the start and end radii agree within 5% and the
subtended angle is at most 90° plus a small epsilon, and the first
accepted candidate determines the arc (`specResolve` is this
first-accepted description; the in-place mutation of `i`/`j` in the
source loop does not change the outcome).  For start (1,0), end
(0,1), I=-1, J=0, counter-clockwise, the resolved arc is the quarter
circle of radius 1 centered at (0,0) with angle π/2 ≤ 90°. -/
theorem gerber_single_quadrant_arc (cx cy x y i j : ℝ) (dir : String) :
    singleQuadrantResolve cx cy x y i j dir
      = specResolve cx cy x y i j dir ∧
    (singleQuadrantResolve 1 0 0 1 (-1) 0 "ccw"
        = some ⟨(0, 0), 1, 0, Real.pi / 2, Real.pi / 2⟩ ∧
     Real.pi / 2 ≤ Real.pi / 2) := by
  have main : ∀ cx cy x y i j : ℝ, ∀ dir : String,
      singleQuadrantResolve cx cy x y i j dir
        = specResolve cx cy x y i j dir := by
    intro cx cy x y i j dir
    unfold singleQuadrantResolve specResolve
    apply sqResolveGo_eq_find
    intro c hc
    simp only [sqCandidates, List.mem_cons, List.not_mem_nil, or_false] at hc
    rcases hc with rfl | rfl | rfl | rfl <;> constructor <;> ring
  refine ⟨main cx cy x y i j dir, ?_, le_refl _⟩
  rw [main]
  have hcand : sqCandidates 1 0 (-1) 0
      = [((0 : ℝ), (0 : ℝ)), (2, 0), (0, 0), (2, 0)] := by
    simp only [sqCandidates]
    norm_num
  have hacc : specAccepts 1 0 0 1 "ccw" ((0 : ℝ), (0 : ℝ)) := by
    unfold specAccepts
    have h1 : Real.sqrt (((0 : ℝ) - 1) ^ 2 + ((0 : ℝ) - 0) ^ 2) = 1 := by
      rw [show ((0 : ℝ) - 1) ^ 2 + ((0 : ℝ) - 0) ^ 2 = 1 by norm_num,
        Real.sqrt_one]
    have h2 : Real.sqrt (((0 : ℝ) - 0) ^ 2 + ((0 : ℝ) - 1) ^ 2) = 1 := by
      rw [show ((0 : ℝ) - 0) ^ 2 + ((0 : ℝ) - 1) ^ 2 = 1 by norm_num,
        Real.sqrt_one]
    simp only [h1, h2]
    constructor
    · norm_num
    · rw [show ((0 : ℝ) - 0) = 0 by norm_num, show ((1 : ℝ) - 0) = 1 by norm_num,
        arctan2_zero_one, arctan2_one_zero, arc_angle_quarter_ccw,
        abs_of_pos (by positivity)]
      have hpi := Real.pi_pos
      linarith
  unfold specResolve
  rw [hcand, List.find?_cons_of_pos _ (by simpa using hacc)]
  simp only [Option.map_some']
  congr 1
  rw [show ((0 : ℝ) - 1) ^ 2 + ((0 : ℝ) - 0) ^ 2 = 1 by norm_num,
    Real.sqrt_one,
    show ((0 : ℝ) - 0) = 0 by norm_num, show ((1 : ℝ) - 0) = 1 by norm_num,
    arctan2_zero_one, arctan2_one_zero, arc_angle_quarter_ccw,
    abs_of_pos (by positivity)]

lemma dropWhile_of_prefix {α : Type _} {p : α → Bool} {v u : List α}
    (h : v <+: u) (hu : List.dropWhile p u = u) :
    List.dropWhile p v = v := by
  cases v with
  | nil => rfl
  | cons c r =>
    obtain ⟨t, ht⟩ := h
    by_cases hpc : p c
    · exfalso
      rw [← ht, List.cons_append, List.dropWhile_cons, if_pos hpc] at hu
      have hlen := congrArg List.length hu
      have := (List.dropWhile_suffix (l := r ++ t) p).length_le
      simp only [List.length_cons] at hlen
      omega
    · rw [List.dropWhile_cons, if_neg hpc]

/-- The cleanup at the top of `parse_content` is idempotent: cleaning
an already clean raw string changes nothing. -/
lemma amClean_idem (s : String) : amClean (amClean s) = amClean s := by
  unfold amClean
  set q : Char → Bool := fun c => decide (c ∈ ([' ', '*'] : List Char)) with hq
  set F := ((s.toList.filter (· ≠ '\n')).filter (· ≠ '\r')) with hF
  set L := List.rdropWhile q (List.dropWhile q F) with hL
  have hmkL : (String.mk L).toList = L := rfl
  have hsub : ∀ c ∈ L, c ∈ F := by
    intro c hc
    have h1 : c ∈ List.dropWhile q F :=
      (List.rdropWhile_prefix q (List.dropWhile q F)).subset hc
    exact (List.dropWhile_suffix q).subset h1
  have hfil1 : L.filter (· ≠ '\n') = L := by
    apply List.filter_eq_self.mpr
    intro a ha
    have hmem := hsub a ha
    rw [hF, List.mem_filter, List.mem_filter] at hmem
    exact hmem.1.2
  have hfil2 : (L.filter (· ≠ '\n')).filter (· ≠ '\r') = L := by
    rw [hfil1]
    apply List.filter_eq_self.mpr
    intro a ha
    have hmem := hsub a ha
    rw [hF, List.mem_filter] at hmem
    exact hmem.2
  have hdw : List.dropWhile q L = L := by
    apply dropWhile_of_prefix (List.rdropWhile_prefix q (List.dropWhile q F))
    exact List.dropWhile_idempotent q F
  rw [hmkL, hfil2, hdw, hL, List.rdropWhile_idempotent]

lemma except_bind_ok {ε α β : Type _} {e : Except ε α}
    {k : α → Except ε β} {r : β} (h : (e >>= k) = .ok r) :
    ∃ a, e = .ok a ∧ k a = .ok r := by
  cases e with
  | error err =>
    simp only [Bind.bind, Except.bind] at h
    exact Except.noConfusion h
  | ok a => exact ⟨a, rfl, h⟩

/-- C9: aperture-macro evaluation is deterministic and free of state
leaks: `make_geometry` resets the local-variable, primitive and
geometry state at the start of every call, and the raw-source cleanup
it performs is idempotent, so re-running it on the same macro with the
same modifier list returns the same geometry (and the same object
state). -/
theorem aperture_macro_deterministic (pyEval : String → ℚ)
    (showVal : ℚ → String) (st : AMSt) (mods : List ℚ) (g : AMGeo)
    (st1 : AMSt)
    (h : amMakeGeometry pyEval showVal st mods = .ok (g, st1)) :
    amMakeGeometry pyEval showVal st1 mods = .ok (g, st1) := by
  have hcongr : ∀ t u : AMSt, t.name = u.name →
      amClean t.raw = amClean u.raw →
      amMakeGeometry pyEval showVal t mods
        = amMakeGeometry pyEval showVal u mods := by
    intro t u hn hr
    unfold amMakeGeometry amParseContent
    dsimp only
    rw [hn, hr]
  have h' := h
  unfold amMakeGeometry at h'
  obtain ⟨geo, hfold, hok⟩ := except_bind_ok h'
  have hpair : geo = g ∧
      ({ amParseContent pyEval showVal
          { st with
            locvars := mods.enum.map fun e => (toString (e.1 + 1), e.2),
            primitives := [], geometry := .emptyPoly } with
        geometry := geo } : AMSt) = st1 := by
    have := hok
    simp only [Except.ok.injEq, Prod.mk.injEq] at this
    exact this
  obtain ⟨hgeo, hst1⟩ := hpair
  have hname : st1.name = st.name := by
    rw [← hst1]
    rfl
  have hraw : st1.raw = amClean st.raw := by
    rw [← hst1]
    rfl
  rw [hcongr st1 st hname (by rw [hraw]; exact amClean_idem st.raw)]
  exact h

/-- Witness for C9: a concrete one-primitive macro evaluated twice. -/
theorem aperture_macro_deterministic_witness :
    amMakeGeometry (fun _ => 1) (fun _ => "0")
        ⟨some "M", "1,1,0.5,0,0*", [], [], .emptyPoly⟩ []
      = .ok (.union .emptyPoly (.circle 1 1 1),
             ⟨some "M", "1,1,0.5,0,0", [[1, 1, 1, 1, 1]], [],
              .union .emptyPoly (.circle 1 1 1)⟩) ∧
    amMakeGeometry (fun _ => 1) (fun _ => "0")
        ⟨some "M", "1,1,0.5,0,0", [[1, 1, 1, 1, 1]], [],
         .union .emptyPoly (.circle 1 1 1)⟩ []
      = .ok (.union .emptyPoly (.circle 1 1 1),
             ⟨some "M", "1,1,0.5,0,0", [[1, 1, 1, 1, 1]], [],
              .union .emptyPoly (.circle 1 1 1)⟩) := by
  constructor
  · with_unfolding_all decide
  · exact aperture_macro_deterministic (fun _ => 1) (fun _ => "0")
      ⟨some "M", "1,1,0.5,0,0*", [], [], .emptyPoly⟩ [] _ _
      (by with_unfolding_all decide)

lemma paintLoop_eq_spec (ops : PaintOps) :
    ∀ (n : ℕ) (st : List Path), st.length ≤ n → ∀ (geo : Path)
      (opt : List Path) (mw : ℚ),
      paintLoop ops mw st geo opt = specPaintLoop ops mw st geo opt := by
  intro n
  induction n with
  | zero =>
    intro st hst geo opt mw
    have hnil : st = [] := List.length_eq_zero.mp (Nat.le_zero.mp hst)
    subst hnil
    rw [paintLoop, specPaintLoop]
    rfl
  | succ n ih =>
    intro st hst geo opt mw
    rw [paintLoop, specPaintLoop]
    rcases hn : nearestExtract (lastPt geo) st with - | ⟨pt, cand0, st'⟩
    · rfl
    · have hlen : st'.length ≤ n := by
        have := nearestExtract_length hn
        omega
      have hcand :
          (if pt ≠ firstPt cand0 ∧ pt = lastPt cand0 then
            cand0.reverse else cand0)
          = (if pt = lastPt cand0 ∧ pt ≠ firstPt cand0 then
            cand0.reverse else cand0) :=
        if_congr and_comm rfl rfl
      dsimp only
      rw [hcand]
      by_cases hsplice : ops.corridorWithin (lastPt geo) pt = true ∧
          ops.walkLength (lastPt geo) pt < mw
      · rw [if_pos hsplice, if_pos hsplice]
        exact ih st' hlen _ _ mw
      · rw [if_neg hsplice, if_neg hsplice]
        exact ih st' hlen _ _ mw

/-- C6: `paint_connect` behaves exactly as the specification
describes: a candidate taken from the spatial index is spliced onto
the current path without a tool lift if and only if the straight
connector's tool-width corridor lies entirely within the boundary
polygon and its length is strictly less than `maxWalk` (ten tool
diameters when not given), and the candidate is reversed before
splicing exactly when its last endpoint, not its first, was the
nearest match.  (`max_walk = 0.0` is excluded: being falsy in Python
it would also trigger the default.) -/
theorem paint_connect_matches_spec (ops : PaintOps)
    (storage : List Path) (tooldia : ℚ) (max_walk : Option ℚ)
    (h : max_walk ≠ some 0) :
    paint_connect ops storage tooldia max_walk
      = spec_paint_connect ops storage tooldia max_walk := by
  unfold paint_connect spec_paint_connect
  cases max_walk with
  | none =>
    dsimp only [Option.getD]
    rcases hz : nearestExtract (0, 0) storage with - | ⟨pt, geo, storage'⟩
    · rfl
    · dsimp only
      rw [paintLoop_eq_spec ops storage'.length storage' le_rfl]
  | some m =>
    have hm : m ≠ 0 := fun hmz => h (by rw [hmz])
    dsimp only [Option.getD]
    rw [if_neg hm]
    rcases hz : nearestExtract (0, 0) storage with - | ⟨pt, geo, storage'⟩
    · rfl
    · dsimp only
      rw [paintLoop_eq_spec ops storage'.length storage' le_rfl]

/-- Witness for C6: the equivalence applied to a concrete two-path
storage with a trivial boundary test. -/
theorem paint_connect_matches_spec_witness :
    (some (5 : ℚ) ≠ some 0) ∧
    paint_connect ⟨fun _ _ => true, fun a b => |b.1 - a.1| + |b.2 - a.2|⟩
        [[(0, 0), (1, 0)], [(1, 1), (2, 1)]] 1 (some 5)
      = spec_paint_connect
          ⟨fun _ _ => true, fun a b => |b.1 - a.1| + |b.2 - a.2|⟩
          [[(0, 0), (1, 0)], [(1, 1), (2, 1)]] 1 (some 5) := by
  constructor
  · simp
  · exact paint_connect_matches_spec _ _ _ _ (by simp)

lemma clearLoop_some {π ρ : Type} (ops : PolyOps π ρ) (step : ℚ)
    (hstep : 0 < step) (μ : π → ℚ)
    (hpos : ∀ p, 0 < ops.area p → 0 < μ p)
    (hdec : ∀ p d, 0 < d → μ (ops.buffer p (-d)) ≤ μ p - d) :
    ∀ (fuel : ℕ) (current : π) (acc : List ρ),
      μ current ≤ step * fuel →
      (clearLoop ops step (fuel + 1) current acc).isSome := by
  intro fuel
  induction fuel with
  | zero =>
    intro current acc hμ
    rw [clearLoop]
    rw [if_neg]
    · rfl
    · intro harea
      have h1 := hpos _ harea
      have h2 := hdec current step hstep
      simp only [Nat.cast_zero, mul_zero] at hμ
      linarith
  | succ n ih =>
    intro current acc hμ
    rw [clearLoop]
    by_cases harea : ops.area (ops.buffer current (-step)) > 0
    · rw [if_pos harea]
      apply ih
      have h2 := hdec current step hstep
      push_cast at hμ ⊢
      nlinarith
    · rw [if_neg harea]
      rfl

lemma clearLoop_mono {π ρ : Type} (ops : PolyOps π ρ) (step : ℚ) :
    ∀ (n m : ℕ) (current : π) (acc : List ρ) (r : List ρ × π),
      n ≤ m → clearLoop ops step n current acc = some r →
      clearLoop ops step m current acc = some r := by
  intro n
  induction n with
  | zero =>
    intro m current acc r _ h
    simp [clearLoop] at h
  | succ n ih =>
    intro m current acc r hnm h
    obtain ⟨m', rfl⟩ : ∃ m', m = m' + 1 := ⟨m - 1, by omega⟩
    rw [clearLoop] at h ⊢
    by_cases harea : ops.area (ops.buffer current (-step)) > 0
    · rw [if_pos harea] at h ⊢
      exact ih m' _ _ r (by omega) h
    · rw [if_neg harea] at h ⊢
      exact h

lemma clearLoop_final_area {π ρ : Type} (ops : PolyOps π ρ) (step : ℚ) :
    ∀ (n : ℕ) (current : π) (acc acc' : List ρ) (p : π),
      clearLoop ops step n current acc = some (acc', p) →
      ops.area p ≤ 0 := by
  intro n
  induction n with
  | zero =>
    intro current acc acc' p h
    simp [clearLoop] at h
  | succ n ih =>
    intro current acc acc' p h
    rw [clearLoop] at h
    by_cases harea : ops.area (ops.buffer current (-step)) > 0
    · rw [if_pos harea] at h
      exact ih _ _ _ _ h
    · rw [if_neg harea] at h
      simp only [Option.some.injEq, Prod.mk.injEq] at h
      rw [← h.2]
      exact not_lt.mp harea

/-- C7: the standard clearing algorithm buffers the polygon inward by
half the tool diameter, then repeatedly shrinks by
`tooldia * (1 - overlap)`, collecting every iteration's rings, and
stops exactly when the shrunken polygon's area becomes non-positive.
Under the geometric fact that an inward buffer by `d > 0` shrinks any
bounded region's size measure `μ` by at least `d` (and a region of
positive area has positive measure), the loop always terminates: some
finite fuel returns a result whose final polygon has non-positive
area, and any larger fuel returns the same result. -/
theorem clear_polygon_terminates {π ρ : Type} (ops : PolyOps π ρ)
    (μ : π → ℚ)
    (hpos : ∀ p, 0 < ops.area p → 0 < μ p)
    (hdec : ∀ p d, 0 < d → μ (ops.buffer p (-d)) ≤ μ p - d)
    (polygon : π) (tooldia overlap : ℚ)
    (htd : 0 < tooldia) (hov0 : 0 ≤ overlap) (hov1 : overlap < 1) :
    ∃ (n : ℕ) (res : List ρ × π),
      clear_polygon ops polygon tooldia overlap n = some res ∧
      ops.area res.2 ≤ 0 ∧
      ∀ m, n ≤ m →
        clear_polygon ops polygon tooldia overlap m = some res := by
  have hstep : 0 < tooldia * (1 - overlap) := mul_pos htd (by linarith)
  obtain ⟨k, hk⟩ : ∃ k : ℕ,
      μ (ops.buffer polygon (-(tooldia / 2)))
        ≤ tooldia * (1 - overlap) * k := by
    obtain ⟨k, hk⟩ := exists_nat_ge
      (μ (ops.buffer polygon (-(tooldia / 2))) / (tooldia * (1 - overlap)))
    refine ⟨k, ?_⟩
    rw [div_le_iff hstep] at hk
    linarith [hk, mul_comm (tooldia * (1 - overlap)) (k : ℚ)]
  have hsome := clearLoop_some ops _ hstep μ hpos hdec k _
    (ops.rings (ops.buffer polygon (-(tooldia / 2)))) hk
  obtain ⟨res, hres⟩ := Option.isSome_iff_exists.mp hsome
  refine ⟨k + 1, res, hres, ?_, fun m hm => ?_⟩
  · exact clearLoop_final_area ops _ _ _ _ _ _ hres
  · exact clearLoop_mono ops _ _ m _ _ res hm hres

/-- Witness for C7: the termination theorem applied to the interval
model of polygons (a polygon is its inradius, inward buffering
shortens it, the area is clamped at zero). -/
theorem clear_polygon_terminates_witness :
    ∃ (n : ℕ) (res : List ℕ × ℚ),
      clear_polygon
          ⟨fun r => max r 0, fun r d => r + d, fun _ => [0]⟩
          5 1 (1/2) n = some res ∧
      max res.2 0 ≤ 0 ∧
      ∀ m, n ≤ m →
        clear_polygon
          ⟨fun r => max r 0, fun r d => r + d, fun _ => [0]⟩
          5 1 (1/2) m = some res :=
  clear_polygon_terminates
    ⟨fun r => max r 0, fun r d => r + d, fun _ => [0]⟩ id
    (fun p hp => by simpa using hp)
    (fun p d _ => by simp [sub_eq_add_neg])
    5 1 (1/2) (by norm_num) (by norm_num) (by norm_num)

lemma gerberGo_append {σ : Type} (dispatch : σ → String → GLineResult σ) :
    ∀ (pre rest : List String) (st : σ) (n : ℕ),
      gerberGo dispatch (pre ++ rest) st n
        = match gerberGo dispatch pre st n with
          | .ok st' => gerberGo dispatch rest st' (n + pre.length)
          | .error e => .error e := by
  intro pre
  induction pre with
  | nil =>
    intro rest st n
    simp [gerberGo]
  | cons g pre ih =>
    intro rest st n
    rw [List.cons_append, gerberGo, gerberGo]
    cases hd : dispatch st (pyStripLine g) with
    | ok st' =>
      dsimp only
      rw [ih]
      cases hres : gerberGo dispatch pre st' (n + 1) with
      | ok st'' =>
        dsimp only
        simp only [List.length_cons]
        congr 1
        omega
      | error e => rfl
    | unmatched =>
      dsimp only
      rw [ih]
      cases hres : gerberGo dispatch pre st (n + 1) with
      | ok st'' =>
        dsimp only
        simp only [List.length_cons]
        congr 1
        omega
      | error e => rfl
    | raised e => rfl

/-- C8: any exception raised while processing a line of Gerber code
aborts the parse and is re-raised as a parse error carrying the
1-based number and the (stripped) text of the offending line, whereas
a line matching no recognized pattern only logs a warning and parsing
continues with the next line, state unchanged. -/
theorem gerber_parse_lines_error_handling {σ : Type}
    (dispatch : σ → String → GLineResult σ) (init st wst : σ)
    (pre : List String) (gline : String) (post : List String)
    (e : PyErr) (wline : String) (wrest : List String) (n : ℕ)
    (hpre : gerberGo dispatch pre init 1 = .ok st)
    (hraise : dispatch st (pyStripLine gline) = .raised e)
    (hwarn : dispatch wst (pyStripLine wline) = .unmatched) :
    gerberParseLines dispatch init (pre ++ gline :: post)
      = .error ⟨pre.length + 1, pyStripLine gline⟩ ∧
    gerberGo dispatch (wline :: wrest) wst n
      = gerberGo dispatch wrest wst (n + 1) := by
  constructor
  · unfold gerberParseLines
    rw [gerberGo_append, hpre]
    dsimp only
    rw [gerberGo, hraise]
    dsimp only
    rw [Nat.add_comm 1 pre.length]
  · rw [gerberGo, hwarn]

/-- Witness for C8: with the concrete dispatcher, the file
`G74* / D03* / M02*` (a flash with no aperture ever defined) fails
with `GerberParseError` on line 2 carrying the text `D03*`, while the
unrecognized line `FOO` is skipped with the state unchanged. -/
theorem gerber_parse_lines_error_handling_witness :
    (gerberGo gerberMiniDispatch ["G74*"]
        ⟨[], none, none, some 1, some 1, none, 0⟩ 1
        = .ok ⟨[], none, none, some 1, some 1, some "SINGLE", 0⟩ ∧
     gerberMiniDispatch ⟨[], none, none, some 1, some 1, some "SINGLE", 0⟩
        (pyStripLine "D03*") = .raised .keyError ∧
     gerberMiniDispatch ⟨[], none, none, some 1, some 1, some "SINGLE", 0⟩
        (pyStripLine "FOO") = .unmatched) ∧
    gerberParseLines gerberMiniDispatch
        ⟨[], none, none, some 1, some 1, none, 0⟩
        (["G74*"] ++ "D03*" :: ["M02*"])
      = .error ⟨["G74*"].length + 1, pyStripLine "D03*"⟩ ∧
    gerberGo gerberMiniDispatch ("FOO" :: ["M02*"])
        ⟨[], none, none, some 1, some 1, some "SINGLE", 0⟩ 7
      = gerberGo gerberMiniDispatch ["M02*"]
        ⟨[], none, none, some 1, some 1, some "SINGLE", 0⟩ (7 + 1) := by
  refine ⟨⟨by decide, by decide, by decide⟩, ?_⟩
  exact gerber_parse_lines_error_handling gerberMiniDispatch
    ⟨[], none, none, some 1, some 1, none, 0⟩
    ⟨[], none, none, some 1, some 1, some "SINGLE", 0⟩
    ⟨[], none, none, some 1, some 1, some "SINGLE", 0⟩
    ["G74*"] "D03*" ["M02*"] .keyError "FOO" ["M02*"] 7
    (by decide) (by decide) (by decide)

/-- Witness for C10: converting an IN document to "cm". -/
theorem convert_units_unsupported_witness :
    (pyToUpper "cm" ≠ pyToUpper (GeoDoc.mk "IN" [(1, 2)]).units ∧
     pyToUpper "cm" ≠ "MM" ∧ pyToUpper "cm" ≠ "IN") ∧
    GeoDoc.convert_units (GeoDoc.mk "IN" [(1, 2)]) "cm" = (1, GeoDoc.mk "IN" [(1, 2)]) := by
  refine ⟨⟨by decide, by decide, by decide⟩, ?_⟩
  exact convert_units_unsupported (GeoDoc.mk "IN" [(1, 2)]) "cm"
    (by decide) (by decide) (by decide)

end FcCamlib
